import Mathlib

/-!
Verification development for the ExecutiveModel repository.

The repository has three source modules:
* `parseExcel` — spreadsheet ingestion: extracts variable names from the
  INPUTS and OUTPUTS sheets of a dropped workbook file;
* `ModelNode` — a canvas node: drag-and-drop re-ingestion (`onDrop`) and a
  targeted state update (`patchData`), plus rendering of connection handles;
* `App` — the canvas: wires a proposed connection into the edge list
  (`onConnect`).

Each definition below is a shallow embedding of the corresponding source
function.  External collaborators (the XLSX library, the FileReader, the
React Flow `addEdge` helper) are modelled by their observable contract: a
workbook is what `XLSX.read` returns, a file is represented by the outcome
of reading it.
-/

/-- A worksheet row as produced by `sheet_to_json` with `defval: ''`.  Only
the `variable_name` cell matters to the code under study.  `none` models a
row in which the `variable_name` column is absent altogether (the JS lookup
yields `undefined`); `some s` models a present cell whose JS `String()`
rendering is `s` (a missing cell of an existing column arrives as
`some ""` via `defval`). -/
structure Row where
  variable_name : Option String
  deriving DecidableEq, Repr

/-- A worksheet: its rows in order. -/
structure Sheet where
  rows : List Row
  deriving DecidableEq, Repr

/-- A workbook as exposed by `XLSX.read`: the sheet names present, and the
map from name to sheet.  The map is total; the code only ever reads sheets
whose names occur in `SheetNames`. -/
structure Workbook where
  SheetNames : List String
  Sheets : String → Sheet

/-- Outcome of `XLSX.read` on the loaded bytes: a workbook, or a thrown
exception carrying a message (caught by the `catch` block). -/
inductive ParseOutcome where
  | ok (wb : Workbook)
  | failure (msg : String)

/-- Outcome of the `FileReader`: bytes were loaded (represented by what
`XLSX.read` does with them), or the read failed (`onerror`). -/
inductive FileRead where
  | loaded (outcome : ParseOutcome)
  | ioError

/-- A dropped file: its name and how reading it plays out. -/
structure FileInput where
  name : String
  read : FileRead

/-- The structure `parseExcelFile` always resolves with. -/
structure ParseResult where
  filename : String
  inputs : List String
  outputs : List String
  error : Option String
  deriving DecidableEq, Repr

/-- Source: `const REQUIRED_SHEETS = ['INPUTS', 'OUTPUTS']`. -/
def REQUIRED_SHEETS : List String := ["INPUTS", "OUTPUTS"]

/-- JS `String.prototype.trim()`: strip leading and trailing whitespace. -/
def jsTrim (s : String) : String :=
  String.mk
    (((s.data.dropWhile Char.isWhitespace).reverse.dropWhile
      Char.isWhitespace).reverse)

/-- Source function `readVariableNames`: every non-empty value of the `variable_name`
column — `rows.map(row => String(row['variable_name'] ?? '').trim()).filter(Boolean)`.
`filter(Boolean)` on strings keeps exactly the non-empty ones. -/
def readVariableNames (sheet : Sheet) : List String :=
  (sheet.rows.map (fun r => jsTrim (r.variable_name.getD ""))).filter
    (fun s => s ≠ "")

/-- Source function `parseExcelFile`: resolves on every path.  The three paths of the
source — `reader.onerror`, the `catch` around `XLSX.read`, and the
successful load — are the three cases of `file.read`. -/
def parseExcelFile (file : FileInput) : ParseResult :=
  match file.read with
  | FileRead.ioError =>
      { filename := file.name, inputs := [], outputs := [],
        error := some "Failed to read the file from disk." }
  | FileRead.loaded (ParseOutcome.failure msg) =>
      { filename := file.name, inputs := [], outputs := [],
        error := some ("Could not parse file: " ++ msg) }
  | FileRead.loaded (ParseOutcome.ok wb) =>
      let found := wb.SheetNames
      let missing := REQUIRED_SHEETS.filter (fun s => ¬ found.contains s)
      if missing.length > 0 then
        let missingList := String.intercalate " and " missing
        let foundList :=
          if found.length ≠ 0 then String.intercalate ", " found
          else "(no sheets found)"
        { filename := file.name, inputs := [], outputs := [],
          error := some
            ("Required sheet" ++ (if missing.length > 1 then "s" else "")
              ++ " not found: " ++ missingList ++ ". "
              ++ "Sheets in this file: " ++ foundList ++ ".") }
      else
        { filename := file.name,
          inputs := readVariableNames (wb.Sheets "INPUTS"),
          outputs := readVariableNames (wb.Sheets "OUTPUTS"),
          error := none }

/-- Per-node data held by the canvas: the `data` shape documented at the
top of `ModelNode.jsx`. -/
structure NodeData where
  label : String
  order : Option Int
  inputs : List String
  outputs : List String
  error : Option String
  deriving DecidableEq, Repr

/-- A canvas node: identifier plus data. -/
structure FlowNode where
  id : String
  data : NodeData
  deriving DecidableEq, Repr

/-- The partial update passed to `patchData`.  The JS call spreads
`updates` over the old data, so each field is either supplied or left
alone; the source only ever patches these four fields. -/
structure DataPatch where
  label : Option String := none
  inputs : Option (List String) := none
  outputs : Option (List String) := none
  error : Option (Option String) := none
  deriving DecidableEq, Repr

/-- Source: the JS spread `{ ...n.data, ...updates }`. -/
def applyPatch (d : NodeData) (p : DataPatch) : NodeData :=
  { d with
    label := p.label.getD d.label
    inputs := p.inputs.getD d.inputs
    outputs := p.outputs.getD d.outputs
    error := p.error.getD d.error }

/-- Source function `patchData`: update the data of the node with the given id, leaving
every other node untouched. -/
def patchData (id : String) (p : DataPatch) (nds : List FlowNode) :
    List FlowNode :=
  nds.map (fun n =>
    if n.id = id then { n with data := applyPatch n.data p } else n)

/-- ASCII lowercasing of one character (models the `i` regex flag on the
ASCII file extensions involved). -/
def asciiLower (c : Char) : Char :=
  if 'A' ≤ c ∧ c ≤ 'Z' then Char.ofNat (c.toNat + 32) else c

/-- The drop filter regex on a file name: ends with `.xlsx` or `.xls`,
case-insensitively. -/
def isExcelName (name : String) : Bool :=
  let lower := name.data.map asciiLower
  List.isSuffixOf ".xlsx".data lower || List.isSuffixOf ".xls".data lower

/-- Source function `onDrop` for the node with the given id: take the first `.xlsx`/`.xls`
file of the drop; when there is none, record the file-type error message;
otherwise parse the file and patch label, ports and error from the
result. -/
def onDrop (id : String) (files : List FileInput) (nds : List FlowNode) :
    List FlowNode :=
  match files.find? (fun f => isExcelName f.name) with
  | none =>
      patchData id
        { error := some (some "Only .xlsx / .xls files are accepted.") } nds
  | some file =>
      let result := parseExcelFile file
      patchData id
        { label := some result.filename
          inputs := some result.inputs
          outputs := some result.outputs
          error := some result.error } nds

/-- The connection handle ids rendered for the input column: one `Handle`
per occurrence of a name, with handle id `"in-" ++ name`. -/
def inputHandleIds (inputs : List String) : List String :=
  inputs.map (fun name => "in-" ++ name)

/-- The connection handle ids rendered for the output column:
`"out-" ++ name`. -/
def outputHandleIds (outputs : List String) : List String :=
  outputs.map (fun name => "out-" ++ name)

/-- A React Flow edge as stored by the canvas (the stroke colour is pure
styling and is not modelled). -/
structure FlowEdge where
  id : String
  source : String
  sourceHandle : Option String
  target : String
  targetHandle : Option String
  animated : Bool
  deriving DecidableEq, Repr

/-- Connection parameters as delivered to `onConnect`. -/
structure Connection where
  source : String
  sourceHandle : Option String
  target : String
  targetHandle : Option String
  deriving DecidableEq, Repr

/-- The edge id the React Flow `addEdge` helper generates. -/
def edgeId (c : Connection) : String :=
  "xy-edge__" ++ c.source ++ c.sourceHandle.getD "" ++ "-" ++ c.target
    ++ c.targetHandle.getD ""

/-- The duplicate test of the React Flow `addEdge` helper: same endpoints
and same handles. -/
def connectionExists (c : Connection) (e : FlowEdge) : Bool :=
  e.source == c.source && e.target == c.target
    && e.sourceHandle == c.sourceHandle && e.targetHandle == c.targetHandle

/-- The React Flow `addEdge` helper (external library, modelled by its
contract): discard a connection missing an endpoint, skip an exact
duplicate, otherwise append the new edge. -/
def addEdge (c : Connection) (animated : Bool) (eds : List FlowEdge) :
    List FlowEdge :=
  if c.source = "" ∨ c.target = "" then eds
  else if eds.any (connectionExists c) then eds
  else
    eds ++ [{ id := edgeId c, source := c.source
              sourceHandle := c.sourceHandle, target := c.target
              targetHandle := c.targetHandle, animated := animated }]

/-- Source function `onConnect`: spread the connection params with the animated styling and
hand them to `addEdge`; it performs no checks of its own.  In particular it
never inspects the variable names carried by the handles. -/
def onConnect (params : Connection) (eds : List FlowEdge) : List FlowEdge :=
  addEdge params true eds

/-- Modelled from the spec: the Order Engine of §4.3 has no implementation
under src/ (§2 budgets it as new systems work), so its data model and
algorithm are taken from the spec text.  A graph node carries an id and an
optional load error. -/
structure GNode where
  id : String
  loadError : Option String
  deriving DecidableEq, Repr

/-- Modelled from the spec: a directed edge from an output of `source` to
an input of `target`. -/
structure GEdge where
  source : String
  target : String
  deriving DecidableEq, Repr

/-- Modelled from the spec: a graph snapshot. -/
structure Graph where
  nodes : List GNode
  edges : List GEdge
  deriving DecidableEq, Repr

/-- Modelled from the spec: the result of order computation for one node. -/
inductive RankResult where
  | Ranked (n : Nat)
  | UnorderableDegraded
  | UnorderableCyclic
  deriving DecidableEq, Repr

/-- Ids of the nodes with a non-null `loadError`. -/
def errIds (g : Graph) : List String :=
  (g.nodes.filter (fun n => n.loadError.isSome)).map (fun n => n.id)

/-- One step of the transitive-dependent closure: add the targets of edges
leaving the current set. -/
def degStep (edges : List GEdge) (s : List String) : List String :=
  s ++ (edges.filter
    (fun e => s.contains e.source && !(s.contains e.target))).map
      (fun e => e.target)

/-- Modelled from the spec (§4.3 step 1): error nodes together with every
node that transitively depends on one. -/
def degradedSet (g : Graph) : List String :=
  (degStep g.edges)^[g.nodes.length] (errIds g)

/-- A node is blocked while some edge into it still has its source among
the remaining nodes (positive in-degree among remaining nodes). -/
def isBlocked (edges : List GEdge) (rem : List String) (v : String) : Bool :=
  edges.any (fun e => e.target == v && rem.contains e.source)

/-- Remove the current layer (the unblocked nodes) from the remaining set:
what is left is exactly the blocked nodes. -/
def peelStep (edges : List GEdge) (rem : List String) : List String :=
  rem.filter (fun v => isBlocked edges rem v)

/-- The remaining set after k rounds of layer removal. -/
def remAt (edges : List GEdge) (rem0 : List String) (k : Nat) : List String :=
  (peelStep edges)^[k] rem0

/-- The layer removed at round k: the remaining nodes of in-degree 0. -/
def layerAt (edges : List GEdge) (rem0 : List String) (k : Nat) :
    List String :=
  (remAt edges rem0 k).filter
    (fun v => !(isBlocked edges (remAt edges rem0 k) v))

/-- Modelled from the spec (§4.3 steps 2-5): the layer index of a node, if
a layer ever absorbs it.  `fuel` rounds suffice when `fuel` is at least the
number of nodes, since every nonempty layer removes at least one node. -/
def kahnRank (edges : List GEdge) (rem0 : List String) (fuel : Nat)
    (v : String) : Option Nat :=
  (List.range fuel).find? (fun k => (layerAt edges rem0 k).contains v)

/-- Modelled from the spec (§4.3): `computeRanks` maps every node id to a
`RankResult` — degraded nodes and their transitive dependents are
`UnorderableDegraded`, nodes absorbed by a layer are `Ranked` with their
layer index, and the leftovers are `UnorderableCyclic`. -/
def computeRanks (g : Graph) : List (String × RankResult) :=
  let deg := degradedSet g
  let rem0 := (g.nodes.map (fun n => n.id)).filter (fun v => !(deg.contains v))
  g.nodes.map (fun n =>
    (n.id,
      if deg.contains n.id then RankResult.UnorderableDegraded
      else
        match kahnRank g.edges rem0 g.nodes.length n.id with
        | some k => RankResult.Ranked k
        | none => RankResult.UnorderableCyclic))

/-- A graph is acyclic when it admits a topological numbering: an
assignment of naturals strictly increasing along every edge.  For a finite
graph this is equivalent to the absence of directed cycles;
`Acyclic.not_walk_self` below proves the direction used to justify the
name. -/
def Acyclic (g : Graph) : Prop :=
  ∃ f : String → Nat, ∀ e ∈ g.edges, f e.source < f e.target

/-- A nonempty directed walk along the edge list. -/
inductive Walk (edges : List GEdge) : String → String → Prop where
  | single {e : GEdge} : e ∈ edges → Walk edges e.source e.target
  | cons {e : GEdge} {w : String} :
      e ∈ edges → Walk edges e.target w → Walk edges e.source w

/-- A concrete error-free three-node chain A -> B -> C used to exercise
the Order Engine. -/
def sampleGraph : Graph :=
  { nodes := [{ id := "A", loadError := none },
              { id := "B", loadError := none },
              { id := "C", loadError := none }],
    edges := [{ source := "A", target := "B" },
              { source := "B", target := "C" }] }

/-- A topological numbering of `sampleGraph`. -/
def sampleNumbering (s : String) : Nat :=
  if s = "A" then 0 else if s = "B" then 1 else 2

/-- Stated from the spec, for comparison with `readVariableNames`: the
trimmed values of the `variable_name` column, in row order (a missing
value coerces to the empty string). -/
def specTrimmedColumn (sheet : Sheet) : List String :=
  sheet.rows.map (fun r => jsTrim (r.variable_name.getD ""))

/-- Stated from the spec, for comparison with `readVariableNames`: the
trimmed, non-empty values of the `variable_name` column, in row order,
with blank values dropped. -/
def specSheetVariables (sheet : Sheet) : List String :=
  (specTrimmedColumn sheet).filter (fun s => s ≠ "")

/-- Sanity check: one missing sheet produces the singular message. -/
example :
    parseExcelFile
      { name := "m.xlsx",
        read := FileRead.loaded (ParseOutcome.ok
          { SheetNames := ["INPUTS"], Sheets := fun _ => { rows := [] } }) } =
    { filename := "m.xlsx", inputs := [], outputs := [],
      error := some
        "Required sheet not found: OUTPUTS. Sheets in this file: INPUTS." } := by
  rfl

/-- Sanity check: both sheets missing produce the plural message and the
empty-list placeholder. -/
example :
    parseExcelFile
      { name := "m.xlsx",
        read := FileRead.loaded (ParseOutcome.ok
          { SheetNames := [], Sheets := fun _ => { rows := [] } }) } =
    { filename := "m.xlsx", inputs := [], outputs := [],
      error := some
        "Required sheets not found: INPUTS and OUTPUTS. Sheets in this file: (no sheets found)." } := by
  rfl

/-- Sanity check: trimming, blank dropping, duplicate and order
preservation, and the missing-column row. -/
example :
    parseExcelFile
      { name := "m.xlsx",
        read := FileRead.loaded (ParseOutcome.ok
          { SheetNames := ["INPUTS", "OUTPUTS"],
            Sheets := fun n =>
              if n = "INPUTS" then
                { rows := [{ variable_name := some " a " },
                           { variable_name := some "" },
                           { variable_name := some "b" },
                           { variable_name := some "b" }] }
              else { rows := [{ variable_name := none }] } }) } =
    { filename := "m.xlsx", inputs := ["a", "b", "b"], outputs := [],
      error := none } := by
  decide

/-- Spec scenario (§8): A with output x, B with inputs x and output y, edge
from A to B, gives ranks A at 0 and B at 1. -/
example :
    computeRanks
      { nodes := [{ id := "A", loadError := none },
                  { id := "B", loadError := none }],
        edges := [{ source := "A", target := "B" }] } =
    [("A", RankResult.Ranked 0), ("B", RankResult.Ranked 1)] := by
  decide

/-- Spec scenario (§8): adding the back edge from B to A makes both nodes
cyclic. -/
example :
    computeRanks
      { nodes := [{ id := "A", loadError := none },
                  { id := "B", loadError := none }],
        edges := [{ source := "A", target := "B" },
                  { source := "B", target := "A" }] } =
    [("A", RankResult.UnorderableCyclic),
     ("B", RankResult.UnorderableCyclic)] := by
  decide

/-- Spec property (§8): a load error propagates to transitive dependents
but not to dependencies or unrelated nodes. -/
example :
    computeRanks
      { nodes := [{ id := "A", loadError := none },
                  { id := "B", loadError := some "boom" },
                  { id := "C", loadError := none },
                  { id := "D", loadError := none }],
        edges := [{ source := "A", target := "B" },
                  { source := "B", target := "C" }] } =
    [("A", RankResult.Ranked 0),
     ("B", RankResult.UnorderableDegraded),
     ("C", RankResult.UnorderableDegraded),
     ("D", RankResult.Ranked 0)] := by
  decide

/-- C3: for every input file — including corrupt bytes
(`ParseOutcome.failure`) and unreadable files (`FileRead.ioError`) —
`parseExcelFile` resolves with a result structure carrying the file name,
a list of input names, a list of output names, and an optional error; it
has no other outcome. -/
theorem parseExcelFile_always_resolves (file : FileInput) :
    ∃ (inputs outputs : List String) (error : Option String),
      parseExcelFile file =
        { filename := file.name, inputs := inputs, outputs := outputs,
          error := error } := by
  obtain ⟨name, read⟩ := file
  cases read with
  | ioError => exact ⟨_, _, _, rfl⟩
  | loaded outcome =>
    cases outcome with
    | failure msg => exact ⟨_, _, _, rfl⟩
    | ok wb =>
      unfold parseExcelFile
      dsimp only
      split
      · exact ⟨_, _, _, rfl⟩
      · exact ⟨_, _, _, rfl⟩

/-- C5: `parseExcelFile` reports a parse failure with exactly
`"Could not parse file: <underlying message>"`, and a file read failure
with exactly `"Failed to read the file from disk."`; in both cases the
input and output lists are empty. -/
theorem parseExcelFile_failure_messages (file : FileInput) (msg : String) :
    (file.read = FileRead.ioError →
      parseExcelFile file =
        { filename := file.name, inputs := [], outputs := [],
          error := some "Failed to read the file from disk." }) ∧
    (file.read = FileRead.loaded (ParseOutcome.failure msg) →
      parseExcelFile file =
        { filename := file.name, inputs := [], outputs := [],
          error := some ("Could not parse file: " ++ msg) }) := by
  constructor
  · intro h
    unfold parseExcelFile
    rw [h]
  · intro h
    unfold parseExcelFile
    rw [h]

/-- C5 witness: the two failure messages at concrete files. -/
theorem parseExcelFile_failure_messages_witness :
    ({ name := "a.xlsx", read := FileRead.ioError } : FileInput).read
        = FileRead.ioError ∧
    ({ name := "b.xlsx",
       read := FileRead.loaded (ParseOutcome.failure "bad zip") } :
       FileInput).read
        = FileRead.loaded (ParseOutcome.failure "bad zip") ∧
    parseExcelFile { name := "a.xlsx", read := FileRead.ioError } =
      { filename := "a.xlsx", inputs := [], outputs := [],
        error := some "Failed to read the file from disk." } ∧
    parseExcelFile
        { name := "b.xlsx",
          read := FileRead.loaded (ParseOutcome.failure "bad zip") } =
      { filename := "b.xlsx", inputs := [], outputs := [],
        error := some "Could not parse file: bad zip" } := by
  refine ⟨rfl, rfl, ?_, ?_⟩
  · exact (parseExcelFile_failure_messages
      { name := "a.xlsx", read := FileRead.ioError } "").1 rfl
  · exact ((parseExcelFile_failure_messages
      { name := "b.xlsx",
        read := FileRead.loaded (ParseOutcome.failure "bad zip") }
      "bad zip").2 rfl).trans (by decide)

/-- C8: a late-arriving ingestion result for a node id no longer present
is a safe no-op: `patchData` — and with it a whole `onDrop` — returns the
node list unchanged when no node carries the id, so nothing is created and
nothing is modified. -/
theorem patchData_unknown_id_noop (id : String) (nds : List FlowNode)
    (h : ∀ n ∈ nds, n.id ≠ id) :
    (∀ p : DataPatch, patchData id p nds = nds) ∧
    (∀ files : List FileInput, onDrop id files nds = nds) := by
  have hp : ∀ p : DataPatch, patchData id p nds = nds := by
    intro p
    induction nds with
    | nil => rfl
    | cons hd tl ih =>
      have hhd : ¬ hd.id = id := h hd (List.mem_cons_self hd tl)
      have htl := ih (fun n hn => h n (List.mem_cons_of_mem hd hn))
      simp only [patchData, List.map_cons] at htl ⊢
      rw [if_neg hhd, htl]
  refine ⟨hp, fun files => ?_⟩
  unfold onDrop
  split
  · exact hp _
  · exact hp _

/-- C8 witness: a patch and a drop addressed to an absent id leave a
concrete node list unchanged. -/
theorem patchData_unknown_id_noop_witness :
    (∀ n ∈ ([{ id := "n1",
               data := { label := "m.xlsx", order := none, inputs := ["a"],
                         outputs := ["b"], error := none } }] :
             List FlowNode), n.id ≠ "ghost") ∧
    ((∀ p : DataPatch,
        patchData "ghost" p
          [{ id := "n1",
             data := { label := "m.xlsx", order := none, inputs := ["a"],
                       outputs := ["b"], error := none } }] =
          [{ id := "n1",
             data := { label := "m.xlsx", order := none, inputs := ["a"],
                       outputs := ["b"], error := none } }]) ∧
     (∀ files : List FileInput,
        onDrop "ghost" files
          [{ id := "n1",
             data := { label := "m.xlsx", order := none, inputs := ["a"],
                       outputs := ["b"], error := none } }] =
          [{ id := "n1",
             data := { label := "m.xlsx", order := none, inputs := ["a"],
                       outputs := ["b"], error := none } }])) :=
  ⟨by decide, patchData_unknown_id_noop "ghost" _ (by decide)⟩

/-- C1 counterexample: for a parsed file whose only sheet is INPUTS, the
error message reads `Required sheet not found: ...` — singular, because
exactly one sheet is missing — and not the claimed literal
`Required sheet(s) not found: ...`. -/
theorem parseExcelFile_claimed_message_false :
    (parseExcelFile
      { name := "m.xlsx",
        read := FileRead.loaded (ParseOutcome.ok
          { SheetNames := ["INPUTS"],
            Sheets := fun _ => { rows := [] } }) }).error =
      some "Required sheet not found: OUTPUTS. Sheets in this file: INPUTS." ∧
    (parseExcelFile
      { name := "m.xlsx",
        read := FileRead.loaded (ParseOutcome.ok
          { SheetNames := ["INPUTS"],
            Sheets := fun _ => { rows := [] } }) }).error ≠
      some "Required sheet(s) not found: OUTPUTS. Sheets in this file: INPUTS." := by
  constructor
  · rfl
  · decide

/-- C1 amended: when one or both required sheets are absent the result has
empty inputs and outputs and the exact message
`Required sheet not found: <the one missing>. Sheets in this file: <comma-joined>.`
when exactly one sheet is missing (the word `sheet` singular), and
`Required sheets not found: INPUTS and OUTPUTS. Sheets in this file: <comma-joined, or (no sheets found)>.`
when both are missing. -/
theorem parseExcelFile_missing_sheet_message (file : FileInput)
    (wb : Workbook)
    (hread : file.read = FileRead.loaded (ParseOutcome.ok wb))
    (hmiss : ¬ ("INPUTS" ∈ wb.SheetNames ∧ "OUTPUTS" ∈ wb.SheetNames)) :
    parseExcelFile file =
      { filename := file.name, inputs := [], outputs := [],
        error := some
          (if "INPUTS" ∈ wb.SheetNames then
            "Required sheet not found: OUTPUTS. Sheets in this file: "
              ++ String.intercalate ", " wb.SheetNames ++ "."
          else if "OUTPUTS" ∈ wb.SheetNames then
            "Required sheet not found: INPUTS. Sheets in this file: "
              ++ String.intercalate ", " wb.SheetNames ++ "."
          else
            "Required sheets not found: INPUTS and OUTPUTS. Sheets in this file: "
              ++ (if wb.SheetNames.length ≠ 0 then
                    String.intercalate ", " wb.SheetNames
                  else "(no sheets found)") ++ ".") } := by
  unfold parseExcelFile
  rw [hread]
  have e1 : String.intercalate " and " ["OUTPUTS"] = "OUTPUTS" := by decide
  have e2 : String.intercalate " and " ["INPUTS"] = "INPUTS" := by decide
  have e3 : String.intercalate " and " ["INPUTS", "OUTPUTS"]
      = "INPUTS and OUTPUTS" := by decide
  by_cases hI : "INPUTS" ∈ wb.SheetNames
  · have hO : "OUTPUTS" ∉ wb.SheetNames := fun hO => hmiss ⟨hI, hO⟩
    have hne : wb.SheetNames.length ≠ 0 := by
      have := List.ne_nil_of_mem hI
      simp [this]
    simp [REQUIRED_SHEETS, hI, hO, hne, e1]
  · by_cases hO : "OUTPUTS" ∈ wb.SheetNames
    · have hne : wb.SheetNames.length ≠ 0 := by
        have := List.ne_nil_of_mem hO
        simp [this]
      simp [REQUIRED_SHEETS, hI, hO, hne, e2]
    · simp [REQUIRED_SHEETS, hI, hO, e3]

/-- C1 witness: the amended message at a concrete file whose only sheet is
INPUTS. -/
theorem parseExcelFile_missing_sheet_message_witness :
    ({ name := "m.xlsx",
       read := FileRead.loaded (ParseOutcome.ok
         { SheetNames := ["INPUTS"],
           Sheets := fun _ => { rows := [] } }) } : FileInput).read
        = FileRead.loaded (ParseOutcome.ok
            { SheetNames := ["INPUTS"], Sheets := fun _ => { rows := [] } }) ∧
    ¬ (("INPUTS" : String) ∈ ["INPUTS"] ∧ ("OUTPUTS" : String) ∈ ["INPUTS"]) ∧
    parseExcelFile
      { name := "m.xlsx",
        read := FileRead.loaded (ParseOutcome.ok
          { SheetNames := ["INPUTS"],
            Sheets := fun _ => { rows := [] } }) } =
      { filename := "m.xlsx", inputs := [], outputs := [],
        error := some
          "Required sheet not found: OUTPUTS. Sheets in this file: INPUTS." } := by
  refine ⟨rfl, by decide, ?_⟩
  exact (parseExcelFile_missing_sheet_message _
    { SheetNames := ["INPUTS"], Sheets := fun _ => { rows := [] } }
    rfl (by decide)).trans (by decide)

/-- Shared helper: with both required sheets present, `parseExcelFile`
takes the success branch. -/
theorem parseExcelFile_ok_branch (file : FileInput) (wb : Workbook)
    (hread : file.read = FileRead.loaded (ParseOutcome.ok wb))
    (hin : "INPUTS" ∈ wb.SheetNames) (hout : "OUTPUTS" ∈ wb.SheetNames) :
    parseExcelFile file =
      { filename := file.name,
        inputs := readVariableNames (wb.Sheets "INPUTS"),
        outputs := readVariableNames (wb.Sheets "OUTPUTS"),
        error := none } := by
  unfold parseExcelFile
  rw [hread]
  simp [REQUIRED_SHEETS, hin, hout]

/-- C4: with both required sheets present, the inputs (resp. outputs) are
exactly the trimmed, non-empty values of the `variable_name` column of the
INPUTS (resp. OUTPUTS) sheet; row order is preserved (the result is a
sublist of the trimmed column), only values blank after trimming are
dropped, and duplicates are preserved (every non-blank value keeps its
multiplicity). -/
theorem parseExcelFile_reads_columns (file : FileInput) (wb : Workbook)
    (hread : file.read = FileRead.loaded (ParseOutcome.ok wb))
    (hin : "INPUTS" ∈ wb.SheetNames) (hout : "OUTPUTS" ∈ wb.SheetNames) :
    (parseExcelFile file).error = none ∧
    (parseExcelFile file).inputs = specSheetVariables (wb.Sheets "INPUTS") ∧
    (parseExcelFile file).outputs = specSheetVariables (wb.Sheets "OUTPUTS") ∧
    (parseExcelFile file).inputs.Sublist
      (specTrimmedColumn (wb.Sheets "INPUTS")) ∧
    (parseExcelFile file).outputs.Sublist
      (specTrimmedColumn (wb.Sheets "OUTPUTS")) ∧
    (∀ s : String, s ≠ "" →
      (parseExcelFile file).inputs.count s =
        (specTrimmedColumn (wb.Sheets "INPUTS")).count s ∧
      (parseExcelFile file).outputs.count s =
        (specTrimmedColumn (wb.Sheets "OUTPUTS")).count s) := by
  have hres := parseExcelFile_ok_branch file wb hread hin hout
  have hspec : ∀ sheet : Sheet,
      readVariableNames sheet = specSheetVariables sheet := fun _ => rfl
  rw [hres]
  refine ⟨rfl, hspec _, hspec _, ?_, ?_, ?_⟩
  · exact List.filter_sublist _
  · exact List.filter_sublist _
  · intro s hs
    constructor
    · exact List.count_filter (by simpa using hs)
    · exact List.count_filter (by simpa using hs)

/-- C4 witness: a concrete file whose INPUTS column holds a padded value,
a blank, and a duplicated value. -/
theorem parseExcelFile_reads_columns_witness :
    ({ name := "m.xlsx",
       read := FileRead.loaded (ParseOutcome.ok
         { SheetNames := ["INPUTS", "OUTPUTS"],
           Sheets := fun n =>
             if n = "INPUTS" then
               { rows := [{ variable_name := some " a " },
                          { variable_name := some "" },
                          { variable_name := some "b" },
                          { variable_name := some "b" }] }
             else { rows := [] } }) } : FileInput).read
      = FileRead.loaded (ParseOutcome.ok
          { SheetNames := ["INPUTS", "OUTPUTS"],
            Sheets := fun n =>
              if n = "INPUTS" then
                { rows := [{ variable_name := some " a " },
                           { variable_name := some "" },
                           { variable_name := some "b" },
                           { variable_name := some "b" }] }
              else { rows := [] } }) ∧
    ("INPUTS" : String) ∈ ["INPUTS", "OUTPUTS"] ∧
    ("OUTPUTS" : String) ∈ ["INPUTS", "OUTPUTS"] ∧
    (parseExcelFile
      { name := "m.xlsx",
        read := FileRead.loaded (ParseOutcome.ok
          { SheetNames := ["INPUTS", "OUTPUTS"],
            Sheets := fun n =>
              if n = "INPUTS" then
                { rows := [{ variable_name := some " a " },
                           { variable_name := some "" },
                           { variable_name := some "b" },
                           { variable_name := some "b" }] }
              else { rows := [] } }) }).inputs = ["a", "b", "b"] ∧
    (parseExcelFile
      { name := "m.xlsx",
        read := FileRead.loaded (ParseOutcome.ok
          { SheetNames := ["INPUTS", "OUTPUTS"],
            Sheets := fun n =>
              if n = "INPUTS" then
                { rows := [{ variable_name := some " a " },
                           { variable_name := some "" },
                           { variable_name := some "b" },
                           { variable_name := some "b" }] }
              else { rows := [] } }) }).error = none := by
  have h := parseExcelFile_reads_columns
    { name := "m.xlsx",
      read := FileRead.loaded (ParseOutcome.ok
        { SheetNames := ["INPUTS", "OUTPUTS"],
          Sheets := fun n =>
            if n = "INPUTS" then
              { rows := [{ variable_name := some " a " },
                         { variable_name := some "" },
                         { variable_name := some "b" },
                         { variable_name := some "b" }] }
            else { rows := [] } }) }
    { SheetNames := ["INPUTS", "OUTPUTS"],
      Sheets := fun n =>
        if n = "INPUTS" then
          { rows := [{ variable_name := some " a " },
                     { variable_name := some "" },
                     { variable_name := some "b" },
                     { variable_name := some "b" }] }
        else { rows := [] } }
    rfl (by decide) (by decide)
  exact ⟨rfl, by decide, by decide, h.2.1.trans (by decide), h.1⟩

/-- C10: with both required sheets present but a sheet having no
`variable_name` column at all (every row lacks the key, so every lookup
coerces to the empty string), `parseExcelFile` still resolves with a null
error and an empty list for that sheet — no error mentions the missing
column. -/
theorem parseExcelFile_missing_column (file : FileInput) (wb : Workbook)
    (hread : file.read = FileRead.loaded (ParseOutcome.ok wb))
    (hin : "INPUTS" ∈ wb.SheetNames) (hout : "OUTPUTS" ∈ wb.SheetNames) :
    (parseExcelFile file).error = none ∧
    ((∀ r ∈ (wb.Sheets "INPUTS").rows, r.variable_name = none) →
      (parseExcelFile file).inputs = []) ∧
    ((∀ r ∈ (wb.Sheets "OUTPUTS").rows, r.variable_name = none) →
      (parseExcelFile file).outputs = []) := by
  have hres := parseExcelFile_ok_branch file wb hread hin hout
  have hempty : ∀ sheet : Sheet,
      (∀ r ∈ sheet.rows, r.variable_name = none) →
      readVariableNames sheet = [] := by
    intro sheet hcol
    unfold readVariableNames
    refine List.filter_eq_nil_iff.mpr ?_
    intro s hsm
    obtain ⟨r, hr, hrs⟩ := List.mem_map.mp hsm
    rw [hcol r hr] at hrs
    simp [← hrs, jsTrim]
  rw [hres]
  exact ⟨rfl, fun h => hempty _ h, fun h => hempty _ h⟩

/-- C10 witness: a concrete file whose INPUTS sheet has rows without a
`variable_name` column. -/
theorem parseExcelFile_missing_column_witness :
    ({ name := "m.xlsx",
       read := FileRead.loaded (ParseOutcome.ok
         { SheetNames := ["INPUTS", "OUTPUTS"],
           Sheets := fun n =>
             if n = "INPUTS" then
               { rows := [{ variable_name := none },
                          { variable_name := none }] }
             else { rows := [{ variable_name := some "x" }] } }) } :
       FileInput).read
      = FileRead.loaded (ParseOutcome.ok
          { SheetNames := ["INPUTS", "OUTPUTS"],
            Sheets := fun n =>
              if n = "INPUTS" then
                { rows := [{ variable_name := none },
                           { variable_name := none }] }
              else { rows := [{ variable_name := some "x" }] } }) ∧
    ("INPUTS" : String) ∈ ["INPUTS", "OUTPUTS"] ∧
    ("OUTPUTS" : String) ∈ ["INPUTS", "OUTPUTS"] ∧
    (∀ r ∈ ([{ variable_name := none },
              { variable_name := none }] : List Row),
      r.variable_name = none) ∧
    (parseExcelFile
      { name := "m.xlsx",
        read := FileRead.loaded (ParseOutcome.ok
          { SheetNames := ["INPUTS", "OUTPUTS"],
            Sheets := fun n =>
              if n = "INPUTS" then
                { rows := [{ variable_name := none },
                           { variable_name := none }] }
              else { rows := [{ variable_name := some "x" }] } }) }).error
        = none ∧
    (parseExcelFile
      { name := "m.xlsx",
        read := FileRead.loaded (ParseOutcome.ok
          { SheetNames := ["INPUTS", "OUTPUTS"],
            Sheets := fun n =>
              if n = "INPUTS" then
                { rows := [{ variable_name := none },
                           { variable_name := none }] }
              else { rows := [{ variable_name := some "x" }] } }) }).inputs
        = [] := by
  have h := parseExcelFile_missing_column
    { name := "m.xlsx",
      read := FileRead.loaded (ParseOutcome.ok
        { SheetNames := ["INPUTS", "OUTPUTS"],
          Sheets := fun n =>
            if n = "INPUTS" then
              { rows := [{ variable_name := none },
                         { variable_name := none }] }
            else { rows := [{ variable_name := some "x" }] } }) }
    { SheetNames := ["INPUTS", "OUTPUTS"],
      Sheets := fun n =>
        if n = "INPUTS" then
          { rows := [{ variable_name := none },
                     { variable_name := none }] }
        else { rows := [{ variable_name := some "x" }] } }
    rfl (by decide) (by decide)
  exact ⟨rfl, by decide, by decide, by decide, h.1, h.2.1 (by decide)⟩

/-- Shared helper: whenever `parseExcelFile` reports an error, both
returned lists are empty. -/
theorem parseExcelFile_error_empty (file : FileInput)
    (h : (parseExcelFile file).error ≠ none) :
    (parseExcelFile file).inputs = [] ∧ (parseExcelFile file).outputs = [] := by
  obtain ⟨name, read⟩ := file
  cases read with
  | ioError => exact ⟨rfl, rfl⟩
  | loaded outcome =>
    cases outcome with
    | failure msg => exact ⟨rfl, rfl⟩
    | ok wb =>
      unfold parseExcelFile at h ⊢
      dsimp only at h ⊢
      split at h
      next hc => exact ⟨by rw [if_pos hc], by rw [if_pos hc]⟩
      next hc => exact absurd rfl h

/-- C2 counterexample: a node that had loaded ports, re-ingested with a
file whose parse fails, does not keep its ports — `onDrop` patches
`inputs`/`outputs` from the (empty) parse result, wiping them. -/
theorem onDrop_error_wipes_ports :
    onDrop "n1"
      [{ name := "bad.xlsx",
         read := FileRead.loaded (ParseOutcome.failure "boom") }]
      [{ id := "n1",
         data := { label := "old.xlsx", order := none, inputs := ["a"],
                   outputs := ["b"], error := none } }] =
      [{ id := "n1",
         data := { label := "bad.xlsx", order := none, inputs := [],
                   outputs := [], error := some "Could not parse file: boom" } }] ∧
    (([] : List String) ≠ ["a"]) := by
  constructor
  · decide
  · decide

/-- C2 amended: when the drop carries an acceptable file, the node with
the dropped-on id still exists (every other node untouched) but its
`label`, `inputs`, `outputs` and `error` are all replaced wholesale from
the parse result — and whenever that result carries an error its lists are
empty, so the previously loaded ports are lost, not kept.  Only a drop
with no acceptable file (the file-type error) leaves the ports unchanged
and touches the error field alone. -/
theorem onDrop_error_replaces_ports (id : String) (f : FileInput)
    (files : List FileInput) (nds : List FlowNode)
    (hfind : files.find? (fun g => isExcelName g.name) = some f) :
    (onDrop id files nds = nds.map (fun n =>
        if n.id = id then
          { n with data :=
              { label := (parseExcelFile f).filename
                order := n.data.order
                inputs := (parseExcelFile f).inputs
                outputs := (parseExcelFile f).outputs
                error := (parseExcelFile f).error } }
        else n)) ∧
    ((parseExcelFile f).error ≠ none →
      (parseExcelFile f).inputs = [] ∧ (parseExcelFile f).outputs = []) ∧
    (∀ files2 : List FileInput,
      files2.find? (fun g => isExcelName g.name) = none →
      onDrop id files2 nds = nds.map (fun n =>
        if n.id = id then
          { n with data := { n.data with
              error := some "Only .xlsx / .xls files are accepted." } }
        else n)) := by
  refine ⟨?_, parseExcelFile_error_empty f, ?_⟩
  · unfold onDrop
    rw [hfind]
    unfold patchData
    refine List.map_congr_left ?_
    intro n _
    by_cases h : n.id = id
    · simp [h, applyPatch]
    · simp [h]
  · intro files2 hnone
    unfold onDrop
    rw [hnone]
    unfold patchData
    refine List.map_congr_left ?_
    intro n _
    by_cases h : n.id = id
    · simp [h, applyPatch]
    · simp [h]

/-- C2 witness: the amended behavior at a concrete degraded re-ingestion. -/
theorem onDrop_error_replaces_ports_witness :
    ([{ name := "bad.xlsx",
        read := FileRead.loaded (ParseOutcome.failure "boom") }] :
      List FileInput).find? (fun g => isExcelName g.name) =
      some { name := "bad.xlsx",
             read := FileRead.loaded (ParseOutcome.failure "boom") } ∧
    onDrop "n1"
      [{ name := "bad.xlsx",
         read := FileRead.loaded (ParseOutcome.failure "boom") }]
      [{ id := "n1",
         data := { label := "old.xlsx", order := none, inputs := ["a"],
                   outputs := ["b"], error := none } },
       { id := "n2",
         data := { label := "other.xlsx", order := none, inputs := ["c"],
                   outputs := [], error := none } }] =
      [{ id := "n1",
         data := { label := "bad.xlsx", order := none, inputs := [],
                   outputs := [],
                   error := some "Could not parse file: boom" } },
       { id := "n2",
         data := { label := "other.xlsx", order := none, inputs := ["c"],
                   outputs := [], error := none } }] ∧
    ((parseExcelFile
        { name := "bad.xlsx",
          read := FileRead.loaded (ParseOutcome.failure "boom") }).inputs = []
      ∧ (parseExcelFile
        { name := "bad.xlsx",
          read := FileRead.loaded (ParseOutcome.failure "boom") }).outputs
          = []) := by
  have h := onDrop_error_replaces_ports "n1"
    { name := "bad.xlsx",
      read := FileRead.loaded (ParseOutcome.failure "boom") }
    [{ name := "bad.xlsx",
       read := FileRead.loaded (ParseOutcome.failure "boom") }]
    [{ id := "n1",
       data := { label := "old.xlsx", order := none, inputs := ["a"],
                 outputs := ["b"], error := none } },
     { id := "n2",
       data := { label := "other.xlsx", order := none, inputs := ["c"],
                 outputs := [], error := none } }]
    rfl
  exact ⟨rfl, h.1.trans (by decide), h.2.1 (by decide)⟩

/-- C6 counterexample: a duplicated variable name survives ingestion as
two occurrences, but both occurrences render the same handle id
`in-x`, so the rendered endpoints are not distinct. -/
theorem duplicate_name_shared_handle :
    readVariableNames
      { rows := [{ variable_name := some "x" },
                 { variable_name := some "x" }] } = ["x", "x"] ∧
    inputHandleIds ["x", "x"] = ["in-x", "in-x"] ∧
    ¬ (inputHandleIds ["x", "x"]).Nodup := by
  refine ⟨by decide, by decide, by decide⟩

/-- C6 amended: every occurrence of a duplicated name is preserved — the
rendered handle list has one entry per occurrence and keeps each name with
its multiplicity — but the handle id is a function of the name alone, so
occurrences of the same name share one handle id instead of forming
distinct connection endpoints. -/
theorem inputHandleIds_duplicates (inputs : List String) (name : String)
    (i j : Nat) :
    (inputHandleIds inputs).length = inputs.length ∧
    (inputHandleIds inputs).count ("in-" ++ name) = inputs.count name ∧
    (inputs[i]? = inputs[j]? →
      (inputHandleIds inputs)[i]? = (inputHandleIds inputs)[j]?) := by
  have hinj : Function.Injective (fun s => "in-" ++ s : String → String) := by
    intro a b hab
    have h2 : ("in-" ++ a).data = ("in-" ++ b).data :=
      congrArg String.data hab
    cases a with
    | mk da =>
      cases b with
      | mk db =>
        simp only [String.data_append] at h2
        exact congrArg String.mk (List.append_cancel_left h2)
  refine ⟨List.length_map _ _, ?_, ?_⟩
  · exact List.count_map_of_injective inputs _ hinj name
  · intro hij
    unfold inputHandleIds
    rw [List.getElem?_map, List.getElem?_map, hij]

/-- C6 witness: the amended facts at the duplicated concrete list. -/
theorem inputHandleIds_duplicates_witness :
    (inputHandleIds ["x", "x"]).length = (["x", "x"] : List String).length ∧
    (inputHandleIds ["x", "x"]).count ("in-" ++ "x") =
      (["x", "x"] : List String).count "x" ∧
    ((["x", "x"] : List String)[0]? = (["x", "x"] : List String)[1]? →
      (inputHandleIds ["x", "x"])[0]? = (inputHandleIds ["x", "x"])[1]?) :=
  inputHandleIds_duplicates ["x", "x"] "x" 0 1

/-- C7: `onConnect` performs no name check: a connection whose endpoints
pass the structural checks (nonempty endpoints, not an exact duplicate) is
appended to the edge list even when the source and target variable names
differ. -/
theorem onConnect_ignores_name_mismatch (eds : List FlowEdge)
    (src tgt a b : String)
    (hs : src ≠ "") (ht : tgt ≠ "")
    (hdup : eds.any (connectionExists
      { source := src, sourceHandle := some ("out-" ++ a),
        target := tgt, targetHandle := some ("in-" ++ b) }) = false)
    (_hnames : a ≠ b) :
    onConnect
      { source := src, sourceHandle := some ("out-" ++ a),
        target := tgt, targetHandle := some ("in-" ++ b) } eds =
      eds ++ [{ id := edgeId
                  { source := src, sourceHandle := some ("out-" ++ a),
                    target := tgt, targetHandle := some ("in-" ++ b) },
                source := src, sourceHandle := some ("out-" ++ a),
                target := tgt, targetHandle := some ("in-" ++ b),
                animated := true }] := by
  unfold onConnect addEdge
  rw [if_neg (fun hor => hor.elim hs ht)]
  rw [hdup]
  simp

/-- C7 witness: a concrete mismatched-name connection is appended. -/
theorem onConnect_ignores_name_mismatch_witness :
    ("n1" : String) ≠ "" ∧ ("n2" : String) ≠ "" ∧
    ([] : List FlowEdge).any (connectionExists
      { source := "n1", sourceHandle := some ("out-" ++ "x"),
        target := "n2", targetHandle := some ("in-" ++ "y") }) = false ∧
    ("x" : String) ≠ "y" ∧
    onConnect
      { source := "n1", sourceHandle := some "out-x",
        target := "n2", targetHandle := some "in-y" } [] =
      [{ id := "xy-edge__n1out-x-n2in-y", source := "n1",
         sourceHandle := some "out-x", target := "n2",
         targetHandle := some "in-y", animated := true }] := by
  have h := onConnect_ignores_name_mismatch [] "n1" "n2" "x" "y"
    (by decide) (by decide) (by decide) (by decide)
  refine ⟨by decide, by decide, by decide, by decide, h.trans (by decide)⟩

/-- Helper: unfolding one peeling round. -/
theorem remAt_succ (edges : List GEdge) (rem0 : List String) (k : Nat) :
    remAt edges rem0 (k + 1) = peelStep edges (remAt edges rem0 k) := by
  unfold remAt
  exact Function.iterate_succ_apply' (peelStep edges) k rem0

/-- Helper: blocked nodes are exactly those with an incoming edge whose
source is still remaining. -/
theorem isBlocked_iff (edges : List GEdge) (rem : List String) (v : String) :
    isBlocked edges rem v = true ↔
      ∃ e ∈ edges, e.target = v ∧ e.source ∈ rem := by
  unfold isBlocked
  rw [List.any_eq_true]
  constructor
  · rintro ⟨e, he, hb⟩
    rw [Bool.and_eq_true] at hb
    exact ⟨e, he, by simpa using hb.1, by simpa using hb.2⟩
  · rintro ⟨e, he, h1, h2⟩
    exact ⟨e, he, by simp [h1, h2]⟩

/-- Helper: membership in the next remaining set. -/
theorem mem_remAt_succ (edges : List GEdge) (rem0 : List String) (k : Nat)
    (v : String) :
    v ∈ remAt edges rem0 (k + 1) ↔
      v ∈ remAt edges rem0 k ∧
        isBlocked edges (remAt edges rem0 k) v = true := by
  rw [remAt_succ]
  unfold peelStep
  exact List.mem_filter

/-- Helper: membership in a layer. -/
theorem mem_layerAt_iff (edges : List GEdge) (rem0 : List String) (k : Nat)
    (v : String) :
    v ∈ layerAt edges rem0 k ↔
      v ∈ remAt edges rem0 k ∧
        isBlocked edges (remAt edges rem0 k) v = false := by
  unfold layerAt
  rw [List.mem_filter]
  constructor
  · rintro ⟨h1, h2⟩
    exact ⟨h1, by simpa using h2⟩
  · rintro ⟨h1, h2⟩
    exact ⟨h1, by simp [h2]⟩

/-- Helper: the remaining sets shrink over rounds. -/
theorem remAt_antitone (edges : List GEdge) (rem0 : List String)
    {j k : Nat} (hjk : j ≤ k) {v : String}
    (hv : v ∈ remAt edges rem0 k) : v ∈ remAt edges rem0 j := by
  induction k, hjk using Nat.le_induction with
  | base => exact hv
  | succ k hjk ih => exact ih ((mem_remAt_succ edges rem0 k v).mp hv).1

/-- Helper: a nonempty list has an element minimizing any measure. -/
theorem exists_min_on_list (l : List String) (f : String → Nat)
    (hl : l ≠ []) : ∃ v ∈ l, ∀ u ∈ l, f v ≤ f u := by
  induction l with
  | nil => exact absurd rfl hl
  | cons hd tl ih =>
    cases tl with
    | nil => exact ⟨hd, List.mem_singleton_self hd, by simp⟩
    | cons x xs =>
      obtain ⟨v, hv, hmin⟩ := ih (by simp)
      by_cases hc : f hd ≤ f v
      · refine ⟨hd, List.mem_cons_self hd _, ?_⟩
        intro u hu
        rcases List.mem_cons.mp hu with rfl | hu
        · exact Nat.le_refl _
        · exact Nat.le_trans hc (hmin u hu)
      · refine ⟨v, List.mem_cons_of_mem hd hv, ?_⟩
        intro u hu
        rcases List.mem_cons.mp hu with rfl | hu
        · exact Nat.le_of_lt (Nat.lt_of_not_le hc)
        · exact hmin u hu

/-- Helper: with a topological numbering, every nonempty remaining set has
an unblocked node (the one with minimal number). -/
theorem exists_unblocked (edges : List GEdge) (f : String → Nat)
    (hf : ∀ e ∈ edges, f e.source < f e.target) (rem : List String)
    (hrem : rem ≠ []) : ∃ v ∈ rem, isBlocked edges rem v = false := by
  obtain ⟨v, hv, hmin⟩ := exists_min_on_list rem f hrem
  refine ⟨v, hv, ?_⟩
  by_contra hb
  have hb2 : isBlocked edges rem v = true := by
    cases h : isBlocked edges rem v
    · exact absurd h hb
    · rfl
  obtain ⟨e, he, het, hes⟩ := (isBlocked_iff edges rem v).mp hb2
  have h1 : f e.source < f v := het ▸ hf e he
  exact Nat.not_le.mpr h1 (hmin e.source hes)

/-- Helper: while nonempty, each peeling round strictly shrinks the
remaining set. -/
theorem remAt_length_lt (edges : List GEdge) (rem0 : List String)
    (f : String → Nat) (hf : ∀ e ∈ edges, f e.source < f e.target)
    (k : Nat) (hne : remAt edges rem0 k ≠ []) :
    (remAt edges rem0 (k + 1)).length < (remAt edges rem0 k).length := by
  obtain ⟨v, hv, hunb⟩ := exists_unblocked edges f hf _ hne
  rw [remAt_succ]
  unfold peelStep
  refine List.length_filter_lt_length_iff_exists.mpr ⟨v, hv, ?_⟩
  simp [hunb]

/-- Helper: with a topological numbering the peeling exhausts the initial
set within `rem0.length` rounds. -/
theorem remAt_eventually_empty (edges : List GEdge) (rem0 : List String)
    (f : String → Nat) (hf : ∀ e ∈ edges, f e.source < f e.target) :
    remAt edges rem0 rem0.length = [] := by
  have key : ∀ k : Nat, remAt edges rem0 k = [] ∨
      (remAt edges rem0 k).length + k ≤ rem0.length := by
    intro k
    induction k with
    | zero => exact Or.inr (by simp [remAt])
    | succ k ih =>
      rcases ih with hnil | hlen
      · left
        rw [remAt_succ, hnil]
        rfl
      · by_cases hne : remAt edges rem0 k = []
        · left
          rw [remAt_succ, hne]
          rfl
        · right
          have := remAt_length_lt edges rem0 f hf k hne
          omega
  rcases key rem0.length with hnil | hlen
  · exact hnil
  · have : (remAt edges rem0 rem0.length).length = 0 := by omega
    exact List.eq_nil_of_length_eq_zero this

/-- Helper: with a topological numbering, every initial node lands in some
layer with index below `rem0.length`. -/
theorem exists_layer (edges : List GEdge) (rem0 : List String)
    (f : String → Nat) (hf : ∀ e ∈ edges, f e.source < f e.target)
    (v : String) (hv : v ∈ rem0) :
    ∃ k : Nat, k < rem0.length ∧ v ∈ layerAt edges rem0 k := by
  have hlen : 0 < rem0.length := List.length_pos.mpr (List.ne_nil_of_mem hv)
  have hP : ∃ k : Nat, v ∉ remAt edges rem0 (k + 1) := by
    refine ⟨rem0.length - 1, ?_⟩
    have h1 : rem0.length - 1 + 1 = rem0.length := Nat.succ_pred_eq_of_pos hlen
    rw [h1, remAt_eventually_empty edges rem0 f hf]
    exact List.not_mem_nil v
  classical
  let k0 := Nat.find hP
  have hk0 : v ∉ remAt edges rem0 (k0 + 1) := Nat.find_spec hP
  have hmem : v ∈ remAt edges rem0 k0 := by
    cases hk : k0 with
    | zero => exact hv
    | succ j =>
      have hj : j < k0 := by omega
      have := Nat.find_min hP hj
      simp only [Decidable.not_not] at this
      rw [hk] at *
      exact this
  have hunb : isBlocked edges (remAt edges rem0 k0) v = false := by
    cases hb : isBlocked edges (remAt edges rem0 k0) v
    · rfl
    · exact absurd ((mem_remAt_succ edges rem0 k0 v).mpr ⟨hmem, hb⟩) hk0
  have hk0lt : k0 < rem0.length := by
    have hle : k0 ≤ rem0.length - 1 := Nat.find_le (by
      have h1 : rem0.length - 1 + 1 = rem0.length :=
        Nat.succ_pred_eq_of_pos hlen
      rw [h1, remAt_eventually_empty edges rem0 f hf]
      exact List.not_mem_nil v)
    omega
  exact ⟨k0, hk0lt, (mem_layerAt_iff edges rem0 k0 v).mpr ⟨hmem, hunb⟩⟩

/-- Helper: a satisfied predicate makes `find?` succeed with a satisfying
element. -/
theorem exists_find?_eq_some {α : Type} (p : α → Bool) (l : List α)
    (h : ∃ x ∈ l, p x = true) :
    ∃ a, l.find? p = some a ∧ p a = true := by
  induction l with
  | nil => simp at h
  | cons hd tl ih =>
    by_cases hp : p hd = true
    · exact ⟨hd, List.find?_cons_of_pos tl hp, hp⟩
    · obtain ⟨x, hx, hpx⟩ := h
      rcases List.mem_cons.mp hx with rfl | hx
      · exact absurd hpx hp
      · obtain ⟨a, ha, hpa⟩ := ih ⟨x, hx, hpx⟩
        exact ⟨a, by
          rw [List.find?_cons_of_neg tl (by simp [hp])]
          exact ha, hpa⟩

/-- Helper: a successful `kahnRank` lands its node in the named layer. -/
theorem kahnRank_mem_layer (edges : List GEdge) (rem0 : List String)
    (fuel : Nat) (v : String) (k : Nat)
    (h : kahnRank edges rem0 fuel v = some k) :
    v ∈ layerAt edges rem0 k := by
  unfold kahnRank at h
  have := List.find?_some h
  simpa using this

/-- Helper: a node in a layer with index below the fuel gets some rank. -/
theorem kahnRank_isSome (edges : List GEdge) (rem0 : List String)
    (fuel : Nat) (v : String) (k : Nat) (hk : k < fuel)
    (hv : v ∈ layerAt edges rem0 k) :
    ∃ j, kahnRank edges rem0 fuel v = some j := by
  unfold kahnRank
  obtain ⟨a, ha, _⟩ := exists_find?_eq_some
    (fun k => (layerAt edges rem0 k).contains v) (List.range fuel)
    ⟨k, List.mem_range.mpr hk, by simpa using hv⟩
  exact ⟨a, ha⟩

/-- Helper: any valid assignment dominates the round index of every node
still remaining at that round. -/
theorem remAt_rank_le (edges : List GEdge) (rem0 : List String)
    (f : String → Nat) (hf : ∀ e ∈ edges, f e.source < f e.target) :
    ∀ (k : Nat) (v : String), v ∈ remAt edges rem0 k → k ≤ f v := by
  intro k
  induction k with
  | zero => exact fun v _ => Nat.zero_le _
  | succ k ih =>
    intro v hv
    obtain ⟨hmem, hb⟩ := (mem_remAt_succ edges rem0 k v).mp hv
    obtain ⟨e, he, het, hes⟩ := (isBlocked_iff edges _ v).mp hb
    have h1 : k ≤ f e.source := ih e.source hes
    have h2 : f e.source < f v := het ▸ hf e he
    omega

/-- Helper: with no load errors the degraded set is empty. -/
theorem degradedSet_nil (g : Graph)
    (herr : ∀ n ∈ g.nodes, n.loadError = none) : degradedSet g = [] := by
  have herrids : errIds g = [] := by
    unfold errIds
    have : g.nodes.filter (fun n => n.loadError.isSome) = [] :=
      List.filter_eq_nil_iff.mpr (fun n hn => by simp [herr n hn])
    rw [this]
    rfl
  have hfix : degStep g.edges [] = [] := by
    unfold degStep
    simp
  unfold degradedSet
  rw [herrids]
  exact Function.iterate_fixed hfix g.nodes.length

/-- Helper: with no load errors, `computeRanks` reduces to the Kahn layer
index over all node ids. -/
theorem computeRanks_of_no_error (g : Graph)
    (herr : ∀ n ∈ g.nodes, n.loadError = none) :
    computeRanks g = g.nodes.map (fun n =>
      (n.id,
        match kahnRank g.edges (g.nodes.map (fun m => m.id))
            g.nodes.length n.id with
        | some k => RankResult.Ranked k
        | none => RankResult.UnorderableCyclic)) := by
  unfold computeRanks
  rw [degradedSet_nil g herr]
  simp

/-- Helper: with no errors, a `Ranked` entry of `computeRanks` is exactly a
node id whose `kahnRank` is that layer index. -/
theorem ranked_mem_iff (g : Graph)
    (herr : ∀ n ∈ g.nodes, n.loadError = none) (v : String) (k : Nat) :
    (v, RankResult.Ranked k) ∈ computeRanks g ↔
      (∃ n ∈ g.nodes, n.id = v) ∧
        kahnRank g.edges (g.nodes.map (fun m => m.id)) g.nodes.length v
          = some k := by
  rw [computeRanks_of_no_error g herr, List.mem_map]
  constructor
  · rintro ⟨n, hn, heq⟩
    rw [Prod.mk.injEq] at heq
    obtain ⟨h1, h2⟩ := heq
    subst h1
    refine ⟨⟨n, hn, rfl⟩, ?_⟩
    cases hkr : kahnRank g.edges (g.nodes.map (fun m => m.id))
        g.nodes.length n.id with
    | none =>
      rw [hkr] at h2
      simp at h2
    | some j =>
      rw [hkr] at h2
      simp only [RankResult.Ranked.injEq] at h2
      exact congrArg some h2
  · rintro ⟨⟨n, hn, rfl⟩, hkr⟩
    exact ⟨n, hn, by rw [hkr]⟩

/-- Supporting fact justifying the name `Acyclic`: a graph with a
topological numbering has no nonempty directed walk from a node to
itself. -/
theorem Acyclic.not_walk_self (g : Graph) (h : Acyclic g) (v : String) :
    ¬ Walk g.edges v v := by
  obtain ⟨f, hf⟩ := h
  have key : ∀ a b, Walk g.edges a b → f a < f b := by
    intro a b hw
    induction hw with
    | single he => exact hf _ he
    | cons he _ ih => exact Nat.lt_trans (hf _ he) ih
  intro hw
  exact Nat.lt_irrefl (f v) (key v v hw)

/-- C9 (the Order Engine is modelled from the spec, see `computeRanks`):
on an acyclic graph with no degraded nodes, `computeRanks` assigns every
node a `Ranked` value; along every edge the rank of the target strictly
exceeds the rank of the source; and the assignment is minimal — any
assignment of naturals that is strictly increasing along every edge
dominates the computed ranks pointwise, so no node receives a rank higher
than its dependencies force. -/
theorem computeRanks_acyclic_correct (g : Graph)
    (herr : ∀ n ∈ g.nodes, n.loadError = none)
    (hacyc : Acyclic g) :
    (∀ n ∈ g.nodes, ∃ k, (n.id, RankResult.Ranked k) ∈ computeRanks g) ∧
    (∀ e ∈ g.edges, ∀ ks kt,
      (e.source, RankResult.Ranked ks) ∈ computeRanks g →
      (e.target, RankResult.Ranked kt) ∈ computeRanks g → ks < kt) ∧
    (∀ f : String → Nat, (∀ e ∈ g.edges, f e.source < f e.target) →
      ∀ v k, (v, RankResult.Ranked k) ∈ computeRanks g → k ≤ f v) := by
  obtain ⟨f0, hf0⟩ := hacyc
  refine ⟨?_, ?_, ?_⟩
  · intro n hn
    have hvin : n.id ∈ g.nodes.map (fun m => m.id) :=
      List.mem_map_of_mem _ hn
    obtain ⟨k, hk, hlayer⟩ :=
      exists_layer g.edges (g.nodes.map (fun m => m.id)) f0 hf0 n.id hvin
    have hkfuel : k < g.nodes.length := by simpa using hk
    obtain ⟨j, hj⟩ := kahnRank_isSome g.edges (g.nodes.map (fun m => m.id))
      g.nodes.length n.id k hkfuel hlayer
    exact ⟨j, (ranked_mem_iff g herr n.id j).mpr ⟨⟨n, hn, rfl⟩, hj⟩⟩
  · intro e he ks kt hs ht
    have hks := ((ranked_mem_iff g herr _ _).mp hs).2
    have hkt := ((ranked_mem_iff g herr _ _).mp ht).2
    have hsl := kahnRank_mem_layer _ _ _ _ _ hks
    have htl := kahnRank_mem_layer _ _ _ _ _ hkt
    by_contra hlt
    have hle : kt ≤ ks := Nat.le_of_not_lt hlt
    obtain ⟨hsrem, _⟩ := (mem_layerAt_iff _ _ _ _).mp hsl
    obtain ⟨htrem, htunb⟩ := (mem_layerAt_iff _ _ _ _).mp htl
    have hsrem2 : e.source ∈
        remAt g.edges (g.nodes.map (fun m => m.id)) kt :=
      remAt_antitone _ _ hle hsrem
    have hblocked : isBlocked g.edges
        (remAt g.edges (g.nodes.map (fun m => m.id)) kt) e.target = true :=
      (isBlocked_iff _ _ _).mpr ⟨e, he, rfl, hsrem2⟩
    simp [htunb] at hblocked
  · intro f hf v k hm
    have hkr := ((ranked_mem_iff g herr v k).mp hm).2
    have hlayer := kahnRank_mem_layer _ _ _ _ _ hkr
    obtain ⟨hrem, _⟩ := (mem_layerAt_iff _ _ _ _).mp hlayer
    exact remAt_rank_le g.edges (g.nodes.map (fun m => m.id)) f hf k v hrem

/-- C9 witness: the three guarantees at the concrete chain A -> B -> C. -/
theorem computeRanks_acyclic_correct_witness :
    (∀ n ∈ sampleGraph.nodes, n.loadError = none) ∧
    Acyclic sampleGraph ∧
    ((∀ n ∈ sampleGraph.nodes,
        ∃ k, (n.id, RankResult.Ranked k) ∈ computeRanks sampleGraph) ∧
     (∀ e ∈ sampleGraph.edges, ∀ ks kt,
        (e.source, RankResult.Ranked ks) ∈ computeRanks sampleGraph →
        (e.target, RankResult.Ranked kt) ∈ computeRanks sampleGraph →
        ks < kt) ∧
     (∀ f : String → Nat,
        (∀ e ∈ sampleGraph.edges, f e.source < f e.target) →
        ∀ v k, (v, RankResult.Ranked k) ∈ computeRanks sampleGraph →
          k ≤ f v)) := by
  refine ⟨by decide, ⟨sampleNumbering, by decide⟩, ?_⟩
  exact computeRanks_acyclic_correct sampleGraph (by decide)
    ⟨sampleNumbering, by decide⟩
